import Mathlib

/-!
Verification development for the Data Distribution control plane and the
Rate Keeper rate updater of the foundationdb repository, shallowly embedded
from src/fdbserver/DataDistribution.actor.h and
src/fdbserver/RKRateUpdaterTesting.actor.cpp.

Keys are abstracted as natural numbers; machine doubles are modelled as
rationals; 64-bit identifiers are modelled as naturals.
-/

namespace FDB

/-! ## Basic identifiers and key ranges -/

/-- An opaque 128-bit server / data-move identifier (flow `UID`), modelled as a
pair of naturals.  `UID().first()` is `0`. -/
structure UID where
  first : Nat
  second : Nat
deriving DecidableEq

def UID.zero : UID := ⟨0, 0⟩

/-- A half-open key range `[beginKey, endKey)`; the byte-lexicographic key space
is abstracted to naturals, which is faithful for every claim treated here (no
claim depends on the internal structure of keys). -/
structure KeyRange where
  beginKey : Nat
  endKey : Nat
deriving DecidableEq

/-! ## DataMove (DataDistribution.actor.h lines 42-61) -/

/-- Phase of a data move.  Modelled from the spec: `DataMoveMetaData` is
declared in fdbclient, which is not under src/; the spec gives
phase ∈ \x7bPrepare, Running, Deleting, Done\x7d and the default-constructed
metadata starts in the initial phase `Prepare`. -/
inductive DataMovePhase where
  | Prepare
  | Running
  | Deleting
  | Done
deriving DecidableEq

/-- Modelled from the spec: the slice of `DataMoveMetaData` that
`DataDistribution.actor.h` reads, namely `getPhase()`. -/
structure DataMoveMetaData where
  phase : DataMovePhase
deriving DecidableEq

/-- The default-constructed `DataMoveMetaData()`, starting in phase Prepare. -/
def DataMoveMetaData.mkDefault : DataMoveMetaData := ⟨DataMovePhase.Prepare⟩

/-- `struct DataMove` of DataDistribution.actor.h. -/
structure DataMove where
  meta : DataMoveMetaData
  restore : Bool
  valid : Bool
  cancelled : Bool
  primarySrc : List UID
  remoteSrc : List UID
  primaryDest : List UID
  remoteDest : List UID
deriving DecidableEq

/-- The default constructor `DataMove()`:
`meta(DataMoveMetaData()), restore(false), valid(false), cancelled(false)`. -/
def DataMove.mkDefault : DataMove :=
  ⟨DataMoveMetaData.mkDefault, false, false, false, [], [], [], []⟩

/-- The constructor `DataMove(DataMoveMetaData meta, bool restore)`:
`valid(true), cancelled(meta.getPhase() == DataMoveMetaData::Deleting)`.
(`phase` is a trivial scalar member, so reading it from the just-moved-from
parameter yields the supplied phase.) -/
def DataMove.ofMeta (meta : DataMoveMetaData) (restore : Bool) : DataMove :=
  ⟨meta, restore, true, decide (meta.phase = DataMovePhase.Deleting), [], [], [], []⟩

/-! ## RelocateShard (DataDistribution.actor.h lines 37-75) -/

/-- `enum class RelocateReason` of DataDistribution.actor.h.  The spec names
`REBALANCE_ROCKSDB_COLUMN` (rebalance size of physicalShard) as
`REBALANCE_PHYS_SHARD`. -/
inductive RelocateReason where
  | INVALID
  | OTHER
  | REBALANCE_DISK
  | REBALANCE_READ
  | REBALANCE_ROCKSDB_COLUMN
deriving DecidableEq

/-- `struct RelocateShard` of DataDistribution.actor.h.  The `shared_ptr`
member `dataMove` is modelled as an optional value (null pointer = `none`). -/
structure RelocateShard where
  keys : KeyRange
  priority : Int
  cancelled : Bool
  dataMove : Option DataMove
  dataMoveId : UID
  reason : RelocateReason
deriving DecidableEq

/-- The default constructor `RelocateShard()`:
`priority(0), cancelled(false), reason(RelocateReason::INVALID)`. -/
def RelocateShard.mkDefault : RelocateShard :=
  ⟨⟨0, 0⟩, 0, false, none, UID.zero, RelocateReason.INVALID⟩

/-- The constructor `RelocateShard(KeyRange const& keys, int priority,
RelocateReason reason)`. -/
def RelocateShard.mkWith (keys : KeyRange) (priority : Int) (reason : RelocateReason) :
    RelocateShard :=
  ⟨keys, priority, false, none, UID.zero, reason⟩

/-! ## GetTeamRequest comparison (DataDistribution.actor.h lines 123-196) -/

/-- The two observable read loads of an `IDataDistributionTeam` reference used
by `GetTeamRequest`: `getLoadReadBandwidth(true)` (with in-flight reads) and
`getLoadReadBandwidth(false)`. -/
structure TeamRef where
  loadReadBandwidthInflight : ℚ
  loadReadBandwidthBase : ℚ
deriving DecidableEq

/-- The request flags of `struct GetTeamRequest` that `lessCompare` reads. -/
structure GetTeamRequest where
  wantsNewServers : Bool
  wantsTrueBest : Bool
  preferLowerDiskUtil : Bool
  teamMustHaveShards : Bool
  forReadBalance : Bool
  preferLowerReadUtil : Bool
  inflightPenalty : ℚ
deriving DecidableEq

/-- `GetTeamRequest::greaterReadLoad`: `-1` if `a.readload > b.readload`,
`0` on a tie, `1` otherwise (reads `getLoadReadBandwidth(true)`). -/
def greaterReadLoad (a b : TeamRef) : Int :=
  if a.loadReadBandwidthInflight = b.loadReadBandwidthInflight then 0
  else if a.loadReadBandwidthInflight > b.loadReadBandwidthInflight then -1
  else 1

/-- `GetTeamRequest::lessReadLoad`: `-1` if `a.readload < b.readload`,
`0` on a tie, `1` otherwise (reads `getLoadReadBandwidth(false)`). -/
def lessReadLoad (a b : TeamRef) : Int :=
  if a.loadReadBandwidthBase = b.loadReadBandwidthBase then 0
  else if a.loadReadBandwidthBase < b.loadReadBandwidthBase then -1
  else 1

/-- `GetTeamRequest::lessCompareByLoad`:
`lessLoad = aLoadBytes <= bLoadBytes; return preferLowerDiskUtil ? !lessLoad : lessLoad`. -/
def GetTeamRequest.lessCompareByLoad (req : GetTeamRequest) (aLoadBytes bLoadBytes : Int) :
    Bool :=
  let lessLoad : Bool := decide (aLoadBytes ≤ bLoadBytes)
  if req.preferLowerDiskUtil then !lessLoad else lessLoad

/-- `GetTeamRequest::lessCompare`: returns true if `a.score < b.score`. -/
def GetTeamRequest.lessCompare (req : GetTeamRequest) (a b : TeamRef)
    (aLoadBytes bLoadBytes : Int) : Bool :=
  let res : Int :=
    if req.forReadBalance then
      if req.preferLowerReadUtil then greaterReadLoad a b else lessReadLoad a b
    else 0
  if res = 0 then req.lessCompareByLoad aLoadBytes bLoadBytes else decide (res < 0)

/-! ## DD event buffer and the runtime monitor trigger
(DataDistribution.actor.h lines 439-544) -/

/-- `enum DataMoveType` of DataDistribution.actor.h. -/
inductive DataMoveType where
  | PHYSICAL_SHARD_MOVE
  | READ_RANGE_MOVE
deriving DecidableEq

/-- A team of `ShardsAffectedByTeamFailure::Team`: a sorted server list plus
the primary flag. -/
structure Team where
  servers : List UID
  primary : Bool
deriving DecidableEq

/-- `DDEventBuffer::DDEvent`. -/
structure DDEvent where
  eventType : Int
  dataMoveType : Option DataMoveType
  keyRange : Option KeyRange
  physicalShard : Option Nat
  storageServer : Option UID
  team : Option Team
  rs : Option RelocateShard
deriving DecidableEq

/-- `SERVER_KNOBS->PRIORITY_SPLIT_PHYSICAL_SHARD`.  The knob's concrete value
is declared outside src/; only its distinctness from the merge priority is
used by the embedded code. -/
def PRIORITY_SPLIT_PHYSICAL_SHARD : Int := 950

/-- `SERVER_KNOBS->PRIORITY_MERGE_PHYSICAL_SHARD` (distinct from the split
priority). -/
def PRIORITY_MERGE_PHYSICAL_SHARD : Int := 955

/-- The state that `DataDistributionRuntimeMonitor::triggerDDEvent` reads and
writes: the DD event buffer contents (a vector, appended at the back) and the
`keyRangePhysicalShardIDMap` of the physical-shard collection, modelled as its
ordered list of `(range, physicalShardID)` entries (a `KeyRangeMap`'s
`ranges()` iterates in key order). -/
structure DDState where
  buffer : List DDEvent
  keyRangePhysicalShardIDMap : List (KeyRange × Nat)
deriving DecidableEq

/-- The key ranges of the `keyRangePhysicalShardIDMap` whose value equals the
given physical shard id, in key order — exactly the `keyRanges` vector built by
the split branch of `triggerDDEvent`. -/
def rangesOfPhysicalShard (m : List (KeyRange × Nat)) (pid : Nat) : List KeyRange :=
  (m.filter (fun kv => kv.2 == pid)).map (fun kv => kv.1)

/-- The relocations sent for one drained event in `triggerDDEvent`:
an event carrying a `RelocateShard` forwards it; a split event for a physical
shard sends, for its `n` ranges in key order, one `RelocateShard` per range
while `counter <= n / 2` (so the first `n / 2 + 1` ranges), with the event's
priority and reason `REBALANCE_ROCKSDB_COLUMN`; a merge event sends nothing
(`TODO` in the source); any other drained event without a `RelocateShard` hits
`UNREACHABLE()` in the source, and a split event without a physical shard id
fails an `ASSERT` — both modelled as sending nothing. -/
def processEvent (m : List (KeyRange × Nat)) (event : DDEvent) : List RelocateShard :=
  match event.rs with
  | some rs => [rs]
  | none =>
    if event.eventType = PRIORITY_SPLIT_PHYSICAL_SHARD then
      match event.physicalShard with
      | some physicalShardID =>
        let keyRanges := rangesOfPhysicalShard m physicalShardID
        let numKeyRanges := keyRanges.length
        (keyRanges.take (numKeyRanges / 2 + 1)).map
          (fun kr => RelocateShard.mkWith kr event.eventType RelocateReason.REBALANCE_ROCKSDB_COLUMN)
      | none => []
    else if event.eventType = PRIORITY_MERGE_PHYSICAL_SHARD then []
    else []

/-- Draining a list of events in order, concatenating the relocations sent. -/
def drainEvents (m : List (KeyRange × Nat)) : List DDEvent → List RelocateShard
  | [] => []
  | e :: es => processEvent m e ++ drainEvents m es

/-- `DataDistributionRuntimeMonitor::triggerDDEvent(inputEvent, immediate)`:
appends the event to the DD event buffer; if not immediate, returns; otherwise
takes all buffered events (emptying the buffer) and drains them, sending the
resulting relocations to the relocation output stream.  The returned pair is
(post state, relocations sent in order). -/
def triggerDDEvent (st : DDState) (inputEvent : DDEvent) (immediate : Bool) :
    DDState × List RelocateShard :=
  let appended := st.buffer ++ [inputEvent]
  if immediate then
    (⟨[], st.keyRangePhysicalShardIDMap⟩,
      drainEvents st.keyRangePhysicalShardIDMap appended)
  else
    (⟨appended, st.keyRangePhysicalShardIDMap⟩, [])

/-! ## StorageWiggleMetrics serialization
(DataDistribution.actor.h lines 790-879) -/

/-- Modelled from the spec: `TimerSmoother` (flow/Smoother.h, not under src/).
Smoothers carry a total-value accumulator plus a decayed smoothed reading;
`reset(value)` installs `value` as both the instantaneous and smoothed
reading, `getTotal()` returns the accumulator and `smoothTotal()` the smoothed
reading. -/
structure TimerSmoother where
  total : ℚ
  smoothed : ℚ
deriving DecidableEq

def TimerSmoother.reset (value : ℚ) : TimerSmoother := ⟨value, value⟩

def TimerSmoother.getTotal (s : TimerSmoother) : ℚ := s.total

def TimerSmoother.smoothTotal (s : TimerSmoother) : ℚ := s.smoothed

/-- `struct StorageWiggleMetrics`. -/
structure StorageWiggleMetrics where
  last_round_start : ℚ
  last_round_finish : ℚ
  smoothed_round_duration : TimerSmoother
  finished_round : Int
  last_wiggle_start : ℚ
  last_wiggle_finish : ℚ
  smoothed_wiggle_duration : TimerSmoother
  finished_wiggle : Int
deriving DecidableEq

/-- The tuple of fields written by `StorageWiggleMetrics::serialize` when
`!ar.isDeserializing`, in serializer order: `last_wiggle_start,
last_wiggle_finish, step_total, finished_wiggle, last_round_start,
last_round_finish, round_total, finished_round`, where `step_total` and
`round_total` are the smoothers' `getTotal()` readings. -/
structure SerializedWiggleMetrics where
  last_wiggle_start : ℚ
  last_wiggle_finish : ℚ
  step_total : ℚ
  finished_wiggle : Int
  last_round_start : ℚ
  last_round_finish : ℚ
  round_total : ℚ
  finished_round : Int
deriving DecidableEq

/-- The serializing direction of `StorageWiggleMetrics::serialize`. -/
def serializeWiggleMetrics (m : StorageWiggleMetrics) : SerializedWiggleMetrics :=
  ⟨m.last_wiggle_start, m.last_wiggle_finish, m.smoothed_wiggle_duration.getTotal,
    m.finished_wiggle, m.last_round_start, m.last_round_finish,
    m.smoothed_round_duration.getTotal, m.finished_round⟩

/-- The deserializing direction of `StorageWiggleMetrics::serialize`: reads
the serialized fields and then performs
`smoothed_round_duration.reset(round_total)` and
`smoothed_wiggle_duration.reset(step_total)`. -/
def deserializeWiggleMetrics (s : SerializedWiggleMetrics) : StorageWiggleMetrics :=
  ⟨s.last_round_start, s.last_round_finish, TimerSmoother.reset s.round_total,
    s.finished_round, s.last_wiggle_start, s.last_wiggle_finish,
    TimerSmoother.reset s.step_total, s.finished_wiggle⟩

/-! ## Rate Keeper rate updater
(spec section 4.6; tested by src/fdbserver/RKRateUpdaterTesting.actor.cpp) -/

/-- `limitReason_t` values relevant to the treated claims.  The enumeration is
declared outside src/; constructors for reasons none of the claims or tests
under scrutiny mention are omitted. -/
inductive LimitReason where
  | unlimited
  | storage_server_write_bandwidth_mvcc
  | storage_server_write_queue_size
  | storage_server_min_free_space
  | storage_server_durability_lag
  | storage_server_readable_behind
  | storage_server_list_fetch_failed
  | log_server_write_queue
  | log_server_mvcc_write_bandwidth
deriving DecidableEq

/-- `checkApproximatelyEqual` of RKRateUpdaterTesting.actor.cpp as a Boolean:
true iff the assertion passes for the given error bound (the tests pass
`errorBound = 0.2` by default). -/
def checkApproximatelyEqual (a b errorBound : ℚ) : Bool :=
  !((decide (a > b + 1 / 100) && decide (a > b * (1 + errorBound)))
    || (decide (b > a + 1 / 100) && decide (b > a * (1 + errorBound))))

/-- Modelled from the spec: the per-storage-server TPS estimate of
`RKRateUpdater` (IRKRateUpdater.h / RKRateUpdater implementation, not under
src/), as a function of the current transaction rate, the target queue bytes
`Q`, the spring bytes `S`, the storage queue `q`, and — for the
below-the-band case — the write bandwidth headroom and current write rate.
For `q ≤ Q − S` the spec prescribes the MVCC write-bandwidth uplift
`actualTps × (writeBandwidthHeadroom / currentWriteRate)` with reason
`storage_server_write_bandwidth_mvcc`.  For `q > Q − S` the spec's narrative
formula `actualTps × (Q + S − q)/(q − (Q − S))` contradicts both the spec's
own scenario table (S2: 950 MB → ≈2000, S3: 1050 MB → ≈667, S4: 1500 MB →
≈500) and the unit tests HighSQ/HighSQ2/HighSQ3 in
src/fdbserver/RKRateUpdaterTesting.actor.cpp; the behaviour those tests pin
down (with the smoothed durable rate equal to the smoothed input rate, as the
mock metrics arrange) is `actualTps / min((q − (Q − S))/S, 2)`, which this
model follows, with reason `storage_server_write_queue_size`. -/
def storageQueueTpsLimit (actualTps targetBytes springBytes storageQueue
    writeBandwidthHeadroom currentWriteRate : ℚ) : ℚ × LimitReason :=
  if storageQueue ≤ targetBytes - springBytes then
    (actualTps * (writeBandwidthHeadroom / currentWriteRate),
      LimitReason.storage_server_write_bandwidth_mvcc)
  else
    (actualTps / min ((storageQueue - (targetBytes - springBytes)) / springBytes) 2,
      LimitReason.storage_server_write_queue_size)

/-- The formula that the specification's section 4.6 states verbatim for the
band `Q < q ≤ Q + S`, kept for comparison against the modelled updater:
`actualTps × (Q + S − q)/(q − (Q − S))`. -/
def specMidBandFormula (actualTps targetBytes springBytes storageQueue : ℚ) : ℚ :=
  actualTps * (targetBytes + springBytes - storageQueue)
    / (storageQueue - (targetBytes - springBytes))

/-- The per-zone outcome fed to the worst-zone-tolerance step: the zone's
per-process TPS limit and its limit reason. -/
structure ZoneLimit where
  tpsLimit : ℚ
  reason : LimitReason
deriving DecidableEq

/-- Insertion into a list sorted by ascending TPS limit. -/
def insertByLimit (z : ZoneLimit) : List ZoneLimit → List ZoneLimit
  | [] => [z]
  | w :: ws => if z.tpsLimit ≤ w.tpsLimit then z :: w :: ws else w :: insertByLimit z ws

/-- Sorting zone limits by ascending TPS limit. -/
def sortByLimit : List ZoneLimit → List ZoneLimit
  | [] => []
  | z :: zs => insertByLimit z (sortByLimit zs)

/-- `SERVER_KNOBS->RATEKEEPER_DEFAULT_LIMIT` (value declared outside src/;
never inspected by the claims). -/
def RATEKEEPER_DEFAULT_LIMIT : ℚ := 1000000

/-- Modelled from the spec: the worst-zone-tolerance step of `RKRateUpdater`
(implementation not under src/).  With `K = MAX_MACHINES_FALLING_BEHIND`, the
global TPS limit is the `(K+1)`-th smallest per-process limit across distinct
zones (the `K` worst zones are excused, clamped to the last zone when `K`
meets or exceeds the zone count), while the reported reason is the reason of
the worst zone even when that zone is excused (documented open question §9 of
the spec; pinned by the IgnoreWorstZone unit test).  With no zones reporting
metrics, the default limit applies with reason `unlimited`. -/
def globalZoneLimit (maxMachinesFallingBehind : Nat) (zones : List ZoneLimit) :
    ℚ × LimitReason :=
  match sortByLimit zones with
  | [] => (RATEKEEPER_DEFAULT_LIMIT, LimitReason.unlimited)
  | worst :: rest =>
    (((worst :: rest).getD (min maxMachinesFallingBehind rest.length) worst).tpsLimit,
      worst.reason)

/-- The inputs of one rate-updater evaluation: whether the fetch of the
storage-server list failed, and the per-zone limits computed from the
per-process metrics. -/
structure RKMetricsSnapshot where
  ssListFetchFailed : Bool
  zones : List ZoneLimit
deriving DecidableEq

/-- Modelled from the spec: the top level of `RKRateUpdater::update`
(implementation not under src/).  A failed storage-server-list fetch forces a
TPS limit of 0 with reason `storage_server_list_fetch_failed` regardless of
any other metrics; otherwise the worst-zone-tolerance step decides. -/
def rkUpdate (maxMachinesFallingBehind : Nat) (snap : RKMetricsSnapshot) :
    ℚ × LimitReason :=
  if snap.ssListFetchFailed then (0, LimitReason.storage_server_list_fetch_failed)
  else globalZoneLimit maxMachinesFallingBehind snap.zones

/-! ## selectTeamsAndPhysicalShard
(DataDistribution.actor.h lines 546-688) -/

/-- The slice of `GetStorageMetricsReply` read by `getMaxVerLag`. -/
structure GetStorageMetricsReply where
  versionLag : Int
deriving DecidableEq

/-- `struct TeamMetrics`: per-server optional metrics replies. -/
structure TeamMetrics where
  ssMetricsList : List (UID × Option GetStorageMetricsReply)
deriving DecidableEq

/-- One step of the `getMaxVerLag` loop: fold a present version lag into the
running maximum, skip an absent reply. -/
def lagStep (maxLag : Int) (ssMetrics : UID × Option GetStorageMetricsReply) : Int :=
  match ssMetrics.2 with
  | some r => max maxLag r.versionLag
  | none => maxLag

/-- `DataDistributionRuntimeMonitor::getMaxVerLag`: folds `max` over the
present version lags, starting from `-1`. -/
def getMaxVerLag (teamMetrics : TeamMetrics) : Int :=
  teamMetrics.ssMetricsList.foldl lagStep (-1)

/-- The slice of `PhysicalShardCollection::PhysicalShard` the scorer reads:
its id and `metrics.bytes`. -/
structure PhysicalShard where
  id : Nat
  bytes : Int
deriving DecidableEq

/-- One entry of a `TeamAndMetricTuple`:
`(Reference<IDataDistributionTeam>, bool, TeamMetrics)`; the opaque team
reference is modelled by a numeric handle. -/
structure TeamAndMetric where
  team : Nat
  flag : Bool
  metrics : TeamMetrics
deriving DecidableEq

/-- One entry of the `PhysicalShardAwareTeamStats` map: key `pid` together
with the mapped `(PhysicalShard, vector<TeamAndMetricTuple>)` pair.  The
`std::map` iterates entries in ascending key order; the embedding takes the
entry list in that order. -/
structure CandidateStats where
  pid : Nat
  shard : PhysicalShard
  teams : List TeamAndMetric
deriving DecidableEq

/-- `StorageMetrics::infinity` (an int64 constant). -/
def INFINITY_BYTES : Int := 2 ^ 60

/-- The four extrema accumulated by the first pass of
`selectTeamsAndPhysicalShard`: `maxPhysicalShardBytes` (init 0),
`minPhysicalShardBytes` (init infinity), `maxMaxLag` (init 0),
`minMaxLag` (init infinity). -/
structure StatsBounds where
  maxPB : Int
  minPB : Int
  maxML : Int
  minML : Int
deriving DecidableEq

/-- Pointwise widening of the four extrema: the maxima may only grow and the
minima only shrink along the first pass. -/
def BoundsLE (b b' : StatsBounds) : Prop :=
  b.maxPB ≤ b'.maxPB ∧ b'.minPB ≤ b.minPB ∧ b.maxML ≤ b'.maxML ∧ b'.minML ≤ b.minML

/-- One step of the inner loop of the first pass: skip a team whose
`getMaxVerLag` is `-1`, otherwise fold it into `maxMaxLag` and `minMaxLag`. -/
def scanStep (b : StatsBounds) (tm : TeamAndMetric) : StatsBounds :=
  let maxLag := getMaxVerLag tm.metrics
  if maxLag = -1 then b
  else ⟨b.maxPB, b.minPB, max b.maxML maxLag, min b.minML maxLag⟩

/-- The inner loop of the first pass over one candidate's teams. -/
def scanTeamLags (bounds : StatsBounds) (teams : List TeamAndMetric) : StatsBounds :=
  teams.foldl scanStep bounds

/-- One step of the first pass over candidates: scan the candidate's team
lags, then fold `physicalShardBytes` into `maxPhysicalShardBytes` and
`minPhysicalShardBytes`. -/
def boundsStep (b : StatsBounds) (c : CandidateStats) : StatsBounds :=
  let b' := scanTeamLags b c.teams
  ⟨max b'.maxPB c.shard.bytes, min b'.minPB c.shard.bytes, b'.maxML, b'.minML⟩

/-- The first pass of `selectTeamsAndPhysicalShard` over all candidates. -/
def computeBounds (teamStats : List CandidateStats) : StatsBounds :=
  teamStats.foldl boundsStep ⟨0, INFINITY_BYTES, 0, INFINITY_BYTES⟩

/-- The per-candidate `maxLag` of the second pass: starting from 0, fold `max`
over the teams' `getMaxVerLag`, but return `none` (`missSSMetric`) as soon as
any team's value is `-1`. -/
def candMaxLag : List TeamAndMetric → Option Int
  | [] => some 0
  | tm :: rest =>
    let tmp := getMaxVerLag tm.metrics
    if tmp = -1 then none
    else
      match candMaxLag rest with
      | none => none
      | some m => some (max m tmp)

/-- The score of a candidate in the second pass:
`(maxPB − bytes + 1) * 1.0 / (maxPB − minPB + 1) + (maxML − lag + 1) * 1.0 /
(maxML − minML + 1)`, with the numerators and denominators computed in int64
arithmetic and the divisions in floating point (modelled as rationals). -/
def candScore (b : StatsBounds) (bytes lag : Int) : ℚ :=
  ((b.maxPB - bytes + 1 : Int) : ℚ) / ((b.maxPB - b.minPB + 1 : Int) : ℚ)
    + ((b.maxML - lag + 1 : Int) : ℚ) / ((b.maxML - b.minML + 1 : Int) : ℚ)

/-- The accumulator of the second pass: `bestScore` (init 0), the best
physical shard id (init `UID().first() = 0`), and the teams stored for the
best candidate (used to build the reply). -/
structure BestAcc where
  bestScore : ℚ
  bestPid : Nat
  bestTeams : List TeamAndMetric
deriving DecidableEq

/-- One step of the second pass: skip candidates with a missing metric,
otherwise take the candidate when its score strictly exceeds the best so
far. -/
def selectStep (b : StatsBounds) (acc : BestAcc) (c : CandidateStats) : BestAcc :=
  match candMaxLag c.teams with
  | none => acc
  | some lag =>
    let score := candScore b c.shard.bytes lag
    if acc.bestScore < score then ⟨score, c.pid, c.teams⟩ else acc

/-- The second pass of `selectTeamsAndPhysicalShard`. -/
def selectLoop (b : StatsBounds) (teamStats : List CandidateStats) : BestAcc :=
  teamStats.foldl (selectStep b) ⟨0, 0, []⟩

/-- `DataDistributionRuntimeMonitor::PhysicalShardAwareBestTeams`: the best
physical shard id and its `(team, bool)` pairs. -/
structure PhysicalShardAwareBestTeams where
  physicalShardID : Nat
  bestTeams : List (Nat × Bool)
deriving DecidableEq

/-- `DataDistributionRuntimeMonitor::selectTeamsAndPhysicalShard` (the `numDC`
argument only feeds an `ASSERT`, and the trace/debug output is ignored):
computes the four extrema; if `maxPhysicalShardBytes == 0`,
`minPhysicalShardBytes == infinity`, `maxMaxLag == 0` or
`minMaxLag == infinity`, returns the empty optional; otherwise runs the
scoring loop and returns the empty optional when no candidate was taken
(`bestPhysicalShardID == UID().first()`), else the best physical shard with
its team pairs. -/
def selectTeamsAndPhysicalShard (teamStats : List CandidateStats) :
    Option PhysicalShardAwareBestTeams :=
  let b := computeBounds teamStats
  if b.maxPB = 0 ∨ b.minPB = INFINITY_BYTES ∨ b.maxML = 0 ∨ b.minML = INFINITY_BYTES then
    none
  else
    let acc := selectLoop b teamStats
    if acc.bestPid = 0 then none
    else some ⟨acc.bestPid, acc.bestTeams.map (fun tm => (tm.team, tm.flag))⟩

/-- The full characterization proved for `selectTeamsAndPhysicalShard`: the
result is empty exactly when all candidate byte counts are zero, or all byte
counts reach `StorageMetrics::infinity`, or no positive version lag was
observed (`maxMaxLag = 0`), or no version lag was observed at all
(`minMaxLag = infinity`), or every candidate misses a metric for some team;
and a returned result is a candidate with complete metrics whose score
weakly dominates every candidate with complete metrics. -/
def SelectSpecHolds (teamStats : List CandidateStats) : Prop :=
  (selectTeamsAndPhysicalShard teamStats = none ↔
      ((computeBounds teamStats).maxPB = 0 ∨
        (computeBounds teamStats).minPB = INFINITY_BYTES ∨
        (computeBounds teamStats).maxML = 0 ∨
        (computeBounds teamStats).minML = INFINITY_BYTES ∨
        ∀ c ∈ teamStats, candMaxLag c.teams = none))
  ∧ ∀ r, selectTeamsAndPhysicalShard teamStats = some r →
      ∃ c ∈ teamStats, c.pid = r.physicalShardID ∧
        r.bestTeams = c.teams.map (fun tm => (tm.team, tm.flag)) ∧
        ∃ lag, candMaxLag c.teams = some lag ∧
          ∀ c' ∈ teamStats, ∀ lag', candMaxLag c'.teams = some lag' →
            candScore (computeBounds teamStats) c'.shard.bytes lag' ≤
              candScore (computeBounds teamStats) c.shard.bytes lag

/-! ## Theorems -/

/-- Claim C5: the constructor `DataMove(meta, restore)` marks the move valid
and sets `cancelled` to whether the supplied metadata's phase is Deleting (so
the cancelled flag holds iff the stored phase is Deleting), and the
default-constructed `DataMove` is not valid and has `cancelled = false`. -/
theorem dataMove_cancelled_iff_deleting (meta : DataMoveMetaData) (restore : Bool) :
    ((DataMove.ofMeta meta restore).cancelled = true ↔
      (DataMove.ofMeta meta restore).meta.phase = DataMovePhase.Deleting)
    ∧ (DataMove.ofMeta meta restore).valid = true
    ∧ DataMove.mkDefault.cancelled = false
    ∧ DataMove.mkDefault.valid = false := by
  refine ⟨?_, rfl, rfl, rfl⟩
  simp [DataMove.ofMeta]

/-- Claim C6 counterexample: the default constructor `RelocateShard()`
produces the reason `INVALID`, which lies outside the four spec-listed values
\x7bOTHER, REBALANCE_DISK, REBALANCE_READ, REBALANCE_PHYS_SHARD\x7d. -/
theorem relocateShard_default_reason_counterexample :
    RelocateShard.mkDefault.reason = RelocateReason.INVALID
    ∧ RelocateShard.mkDefault.reason ∉
        [RelocateReason.OTHER, RelocateReason.REBALANCE_DISK,
          RelocateReason.REBALANCE_READ, RelocateReason.REBALANCE_ROCKSDB_COLUMN] := by
  decide

/-- Claim C6 (amended): a `RelocateShard` built by the three-argument
constructor carries exactly the reason passed to it, and the default
constructor yields reason `INVALID`; hence constructor-produced reasons range
over `INVALID` together with the four spec-listed values. -/
theorem relocateShard_constructor_reasons (keys : KeyRange) (priority : Int)
    (reason : RelocateReason) :
    (RelocateShard.mkWith keys priority reason).reason = reason
    ∧ RelocateShard.mkDefault.reason = RelocateReason.INVALID :=
  ⟨rfl, rfl⟩

/-- Claim C7: serializing a `StorageWiggleMetrics` and deserializing the
result restores the six plain fields exactly and resets the two duration
smoothers to the originals' totals, so the new smoothers' `getTotal` and
`smoothTotal` readings both equal the originals' `getTotal` readings. -/
theorem wiggleMetrics_roundtrip (m : StorageWiggleMetrics) :
    (deserializeWiggleMetrics (serializeWiggleMetrics m)).last_wiggle_start =
        m.last_wiggle_start
    ∧ (deserializeWiggleMetrics (serializeWiggleMetrics m)).last_wiggle_finish =
        m.last_wiggle_finish
    ∧ (deserializeWiggleMetrics (serializeWiggleMetrics m)).finished_wiggle =
        m.finished_wiggle
    ∧ (deserializeWiggleMetrics (serializeWiggleMetrics m)).last_round_start =
        m.last_round_start
    ∧ (deserializeWiggleMetrics (serializeWiggleMetrics m)).last_round_finish =
        m.last_round_finish
    ∧ (deserializeWiggleMetrics (serializeWiggleMetrics m)).finished_round =
        m.finished_round
    ∧ (deserializeWiggleMetrics (serializeWiggleMetrics m)).smoothed_round_duration.getTotal =
        m.smoothed_round_duration.getTotal
    ∧ (deserializeWiggleMetrics (serializeWiggleMetrics m)).smoothed_round_duration.smoothTotal =
        m.smoothed_round_duration.getTotal
    ∧ (deserializeWiggleMetrics (serializeWiggleMetrics m)).smoothed_wiggle_duration.getTotal =
        m.smoothed_wiggle_duration.getTotal
    ∧ (deserializeWiggleMetrics (serializeWiggleMetrics m)).smoothed_wiggle_duration.smoothTotal =
        m.smoothed_wiggle_duration.getTotal := by
  repeat' constructor

/-- Claim C9: `triggerDDEvent(e, immediate = false)` appends the event at the
back of the DD event buffer and does nothing else — no relocation is sent,
previously buffered events stay in place and in order, and the physical-shard
key-range map is untouched. -/
theorem triggerDDEvent_deferred_frame (st : DDState) (e : DDEvent) :
    triggerDDEvent st e false =
      (⟨st.buffer ++ [e], st.keyRangePhysicalShardIDMap⟩, []) := rfl

/-- Claim C10: with `forReadBalance = false`, `lessCompare` on two teams with
equal load bytes is symmetric rather than antisymmetric: both orientations
return `true` when `preferLowerDiskUtil` is false and both return `false` when
it is true. -/
theorem lessCompare_load_tie (req : GetTeamRequest) (a b : TeamRef) (l : Int)
    (hrb : req.forReadBalance = false) :
    req.lessCompare a b l l = req.lessCompare b a l l
    ∧ (req.preferLowerDiskUtil = false → req.lessCompare a b l l = true)
    ∧ (req.preferLowerDiskUtil = true → req.lessCompare a b l l = false) := by
  cases h : req.preferLowerDiskUtil <;>
    simp [GetTeamRequest.lessCompare, GetTeamRequest.lessCompareByLoad, hrb, h]

/-- Witness for claim C10 at a concrete request and load. -/
theorem lessCompare_load_tie_witness :
    ((⟨false, false, false, false, false, false, 1⟩ : GetTeamRequest).forReadBalance = false)
    ∧ ((⟨false, false, false, false, false, false, 1⟩ : GetTeamRequest).lessCompare
          ⟨0, 0⟩ ⟨2, 2⟩ 5 5 =
        (⟨false, false, false, false, false, false, 1⟩ : GetTeamRequest).lessCompare
          ⟨2, 2⟩ ⟨0, 0⟩ 5 5)
    ∧ ((⟨false, false, false, false, false, false, 1⟩ : GetTeamRequest).preferLowerDiskUtil =
          false →
        (⟨false, false, false, false, false, false, 1⟩ : GetTeamRequest).lessCompare
          ⟨0, 0⟩ ⟨2, 2⟩ 5 5 = true) := by
  refine ⟨rfl, ?_, ?_⟩
  · exact (lessCompare_load_tie ⟨false, false, false, false, false, false, 1⟩
      ⟨0, 0⟩ ⟨2, 2⟩ 5 rfl).1
  · exact (lessCompare_load_tie ⟨false, false, false, false, false, false, 1⟩
      ⟨0, 0⟩ ⟨2, 2⟩ 5 rfl).2.1

/-- Claim C4: whenever the storage-server-list fetch has failed, the rate
updater reports a TPS limit of 0 with reason
`storage_server_list_fetch_failed`, whatever the other metrics say. -/
theorem fetchFailed_zero_limit (maxMachinesFallingBehind : Nat)
    (snap : RKMetricsSnapshot) (h : snap.ssListFetchFailed = true) :
    rkUpdate maxMachinesFallingBehind snap =
      (0, LimitReason.storage_server_list_fetch_failed) := by
  simp [rkUpdate, h]

/-- Witness for claim C4: a snapshot with a failed fetch and a healthy zone
present. -/
theorem fetchFailed_zero_limit_witness :
    (RKMetricsSnapshot.mk true [⟨500, LimitReason.storage_server_write_queue_size⟩]
        |>.ssListFetchFailed) = true
    ∧ rkUpdate 1 ⟨true, [⟨500, LimitReason.storage_server_write_queue_size⟩]⟩ =
        (0, LimitReason.storage_server_list_fetch_failed) :=
  ⟨rfl, fetchFailed_zero_limit 1 ⟨true, [⟨500, LimitReason.storage_server_write_queue_size⟩]⟩ rfl⟩

/-- Claim C2 counterexample: at the spec's own S3 scenario (target 1000 MB,
spring 100 MB, actualTps 1000, queue 1050 MB) the modelled rate updater — and
the in-src unit test HighSQ2 — produce a TPS limit of 2000/3 ≈ 667, while the
formula stated by the claim, `actualTps × (Q + S − q)/(q − (Q − S))`, yields
1000/3 ≈ 333, which fails the test's own approximate-equality check against
667; the claim's formula and its claimed value ≈ 667 cannot both hold. -/
theorem storageQueueTpsLimit_spec_formula_counterexample :
    (storageQueueTpsLimit 1000 1000000000 100000000 1050000000 0 1).1 = 2000 / 3
    ∧ specMidBandFormula 1000 1000000000 100000000 1050000000 = 1000 / 3
    ∧ checkApproximatelyEqual (1000 / 3) (1000 * 2 / 3) (1 / 5) = false
    ∧ checkApproximatelyEqual (2000 / 3) (1000 * 2 / 3) (1 / 5) = true := by
  refine ⟨?_, ?_, ?_, ?_⟩
  · rw [storageQueueTpsLimit, if_neg (by norm_num)]
    have hr : ((1050000000 : ℚ) - (1000000000 - 100000000)) / 100000000 = 3 / 2 := by
      norm_num
    rw [hr, min_eq_left (by norm_num : (3 / 2 : ℚ) ≤ 2)]
    norm_num
  · rw [specMidBandFormula]
    norm_num
  · rw [checkApproximatelyEqual]
    norm_num
  · rw [checkApproximatelyEqual]
    norm_num

/-- Claim C2 (amended): for a single storage server with `Q < q ≤ Q + S`, the
rate updater produces `tpsLimit = actualTps × S / (q − (Q − S))` (the
upstream write-queue throttle with the smoothed durable rate equal to the
smoothed input rate) with limit reason `storage_server_write_queue_size`; at
Q = 1000 MB, S = 100 MB, actualTps = 1000, q = 1050 MB this yields
2000/3 ≈ 667. -/
theorem storageQueueTpsLimit_mid_band (actualTps targetBytes springBytes storageQueue
    writeBandwidthHeadroom currentWriteRate : ℚ)
    (hS : 0 < springBytes) (h1 : targetBytes < storageQueue)
    (h2 : storageQueue ≤ targetBytes + springBytes) :
    storageQueueTpsLimit actualTps targetBytes springBytes storageQueue
        writeBandwidthHeadroom currentWriteRate =
      (actualTps * springBytes / (storageQueue - (targetBytes - springBytes)),
        LimitReason.storage_server_write_queue_size) := by
  have hq : ¬ storageQueue ≤ targetBytes - springBytes := by linarith
  have hratio : (storageQueue - (targetBytes - springBytes)) / springBytes ≤ 2 := by
    rw [div_le_iff₀ hS]
    linarith
  rw [storageQueueTpsLimit, if_neg hq, min_eq_left hratio, div_div_eq_mul_div]

/-- Witness for claim C2 at the S3 scenario values. -/
theorem storageQueueTpsLimit_mid_band_witness :
    (0 : ℚ) < 100000000
    ∧ (1000000000 : ℚ) < 1050000000
    ∧ (1050000000 : ℚ) ≤ 1000000000 + 100000000
    ∧ storageQueueTpsLimit 1000 1000000000 100000000 1050000000 0 1 =
        (1000 * 100000000 / (1050000000 - (1000000000 - 100000000)),
          LimitReason.storage_server_write_queue_size) :=
  ⟨by norm_num, by norm_num, by norm_num,
    storageQueueTpsLimit_mid_band 1000 1000000000 100000000 1050000000 0 1
      (by norm_num) (by norm_num) (by norm_num)⟩

/-- Claim C3: with `MAX_MACHINES_FALLING_BEHIND = K ≥ 1` and two zones — one
with queue 500 MB (below target minus spring, so its limit is the MVCC uplift,
above actualTps whenever the write-bandwidth headroom exceeds the write rate)
and one with queue 1500 MB (limit 500, reason
`storage_server_write_queue_size`) — the global TPS limit is the excused-worst
limit, exceeding 1000, while the reported reason is still the saturated
(excused) zone's `storage_server_write_queue_size`. -/
theorem excused_worst_zone (maxMachinesFallingBehind : Nat)
    (hK : 1 ≤ maxMachinesFallingBehind)
    (writeBandwidthHeadroom currentWriteRate : ℚ)
    (hw : 0 < currentWriteRate) (hh : currentWriteRate < writeBandwidthHeadroom) :
    1000 <
        (rkUpdate maxMachinesFallingBehind
          ⟨false,
            [⟨(storageQueueTpsLimit 1000 1000000000 100000000 500000000
                  writeBandwidthHeadroom currentWriteRate).1,
              (storageQueueTpsLimit 1000 1000000000 100000000 500000000
                  writeBandwidthHeadroom currentWriteRate).2⟩,
             ⟨(storageQueueTpsLimit 1000 1000000000 100000000 1500000000
                  writeBandwidthHeadroom currentWriteRate).1,
              (storageQueueTpsLimit 1000 1000000000 100000000 1500000000
                  writeBandwidthHeadroom currentWriteRate).2⟩]⟩).1
    ∧ (rkUpdate maxMachinesFallingBehind
          ⟨false,
            [⟨(storageQueueTpsLimit 1000 1000000000 100000000 500000000
                  writeBandwidthHeadroom currentWriteRate).1,
              (storageQueueTpsLimit 1000 1000000000 100000000 500000000
                  writeBandwidthHeadroom currentWriteRate).2⟩,
             ⟨(storageQueueTpsLimit 1000 1000000000 100000000 1500000000
                  writeBandwidthHeadroom currentWriteRate).1,
              (storageQueueTpsLimit 1000 1000000000 100000000 1500000000
                  writeBandwidthHeadroom currentWriteRate).2⟩]⟩).2 =
        LimitReason.storage_server_write_queue_size := by
  have hz1 : storageQueueTpsLimit 1000 1000000000 100000000 500000000
      writeBandwidthHeadroom currentWriteRate =
      (1000 * (writeBandwidthHeadroom / currentWriteRate),
        LimitReason.storage_server_write_bandwidth_mvcc) := by
    rw [storageQueueTpsLimit, if_pos (by norm_num)]
  have hz2 : storageQueueTpsLimit 1000 1000000000 100000000 1500000000
      writeBandwidthHeadroom currentWriteRate =
      (500, LimitReason.storage_server_write_queue_size) := by
    rw [storageQueueTpsLimit, if_neg (by norm_num)]
    norm_num
  have hgt : (1000 : ℚ) < 1000 * (writeBandwidthHeadroom / currentWriteRate) := by
    have h1 : (1 : ℚ) < writeBandwidthHeadroom / currentWriteRate :=
      (one_lt_div hw).mpr hh
    nlinarith
  have hle : ¬ (1000 * (writeBandwidthHeadroom / currentWriteRate) ≤ (500 : ℚ)) := by
    intro hcon
    linarith
  rw [hz1, hz2]
  have hmin : min maxMachinesFallingBehind 1 = 1 := min_eq_right hK
  simp only [rkUpdate, globalZoneLimit, sortByLimit, insertByLimit, Bool.false_eq_true,
    if_false, if_neg hle, List.length_cons, List.length_nil, hmin, List.getD]
  exact ⟨hgt, trivial⟩

/-- Witness for claim C3 at `K = 1`, headroom 2, write rate 1. -/
theorem excused_worst_zone_witness :
    1 ≤ 1
    ∧ (0 : ℚ) < 1
    ∧ (1 : ℚ) < 2
    ∧ (1000 <
        (rkUpdate 1
          ⟨false,
            [⟨(storageQueueTpsLimit 1000 1000000000 100000000 500000000 2 1).1,
              (storageQueueTpsLimit 1000 1000000000 100000000 500000000 2 1).2⟩,
             ⟨(storageQueueTpsLimit 1000 1000000000 100000000 1500000000 2 1).1,
              (storageQueueTpsLimit 1000 1000000000 100000000 1500000000 2 1).2⟩]⟩).1
      ∧ (rkUpdate 1
          ⟨false,
            [⟨(storageQueueTpsLimit 1000 1000000000 100000000 500000000 2 1).1,
              (storageQueueTpsLimit 1000 1000000000 100000000 500000000 2 1).2⟩,
             ⟨(storageQueueTpsLimit 1000 1000000000 100000000 1500000000 2 1).1,
              (storageQueueTpsLimit 1000 1000000000 100000000 1500000000 2 1).2⟩]⟩).2 =
          LimitReason.storage_server_write_queue_size) :=
  ⟨le_refl 1, by norm_num, by norm_num,
    excused_worst_zone 1 (le_refl 1) 2 1 (by norm_num) (by norm_num)⟩

/-- Claim C1 counterexample: with the buffer empty and exactly 2 key ranges
mapped to physical shard 7, draining a split event for shard 7 with
`immediate = true` sends 2 relocations, not the claimed ⌈2/2⌉ = 1. -/
theorem triggerDDEvent_split_ceil_counterexample :
    (triggerDDEvent ⟨[], [(⟨0, 1⟩, 7), (⟨1, 2⟩, 7)]⟩
        ⟨PRIORITY_SPLIT_PHYSICAL_SHARD, none, none, some 7, none, none, none⟩
        true).2.length = 2
    ∧ (rangesOfPhysicalShard [(⟨0, 1⟩, 7), (⟨1, 2⟩, 7)] 7).length = 2
    ∧ (2 + 1) / 2 = 1
    ∧ ¬ ((triggerDDEvent ⟨[], [(⟨0, 1⟩, 7), (⟨1, 2⟩, 7)]⟩
        ⟨PRIORITY_SPLIT_PHYSICAL_SHARD, none, none, some 7, none, none, none⟩
        true).2.length = (2 + 1) / 2) := by
  refine ⟨?_, ?_, ?_, ?_⟩ <;> decide

/-- Claim C1 (amended): when a split event for a physical shard whose id maps
exactly `n ≥ 1` key ranges is drained by `triggerDDEvent` with
`immediate = true` (from an otherwise empty buffer), exactly the first
`⌊n/2⌋ + 1` of those ranges, in key order, are each sent to the relocation
stream as a `RelocateShard` with the event's priority and the physical-shard
rebalance reason, no other relocation is sent, and the buffer is left
empty. -/
theorem triggerDDEvent_split_first_half (st : DDState) (e : DDEvent) (pid : Nat)
    (hbuf : st.buffer = []) (hrs : e.rs = none)
    (htype : e.eventType = PRIORITY_SPLIT_PHYSICAL_SHARD)
    (hpid : e.physicalShard = some pid)
    (hn : 1 ≤ (rangesOfPhysicalShard st.keyRangePhysicalShardIDMap pid).length) :
    triggerDDEvent st e true =
      (⟨[], st.keyRangePhysicalShardIDMap⟩,
        ((rangesOfPhysicalShard st.keyRangePhysicalShardIDMap pid).take
            ((rangesOfPhysicalShard st.keyRangePhysicalShardIDMap pid).length / 2 + 1)).map
          (fun kr => RelocateShard.mkWith kr e.eventType
            RelocateReason.REBALANCE_ROCKSDB_COLUMN))
    ∧ (triggerDDEvent st e true).2.length =
        (rangesOfPhysicalShard st.keyRangePhysicalShardIDMap pid).length / 2 + 1 := by
  have heq : triggerDDEvent st e true =
      (⟨[], st.keyRangePhysicalShardIDMap⟩,
        ((rangesOfPhysicalShard st.keyRangePhysicalShardIDMap pid).take
            ((rangesOfPhysicalShard st.keyRangePhysicalShardIDMap pid).length / 2 + 1)).map
          (fun kr => RelocateShard.mkWith kr e.eventType
            RelocateReason.REBALANCE_ROCKSDB_COLUMN)) := by
    rw [triggerDDEvent]
    simp only [hbuf, List.nil_append, if_pos]
    rw [drainEvents, drainEvents, processEvent, hrs, htype, hpid]
    simp
  refine ⟨heq, ?_⟩
  rw [heq]
  simp only [List.length_map, List.length_take]
  omega

/-- Witness for claim C1: three ranges mapped to physical shard 7 produce
exactly the first 2 = ⌊3/2⌋ + 1 relocations. -/
theorem triggerDDEvent_split_first_half_witness :
    (DDState.mk [] [(⟨0, 1⟩, 7), (⟨1, 2⟩, 7), (⟨2, 3⟩, 7)]).buffer = []
    ∧ (DDEvent.mk PRIORITY_SPLIT_PHYSICAL_SHARD none none (some 7) none none none).rs = none
    ∧ 1 ≤ (rangesOfPhysicalShard [(⟨0, 1⟩, 7), (⟨1, 2⟩, 7), (⟨2, 3⟩, 7)] 7).length
    ∧ (triggerDDEvent ⟨[], [(⟨0, 1⟩, 7), (⟨1, 2⟩, 7), (⟨2, 3⟩, 7)]⟩
          ⟨PRIORITY_SPLIT_PHYSICAL_SHARD, none, none, some 7, none, none, none⟩ true =
        (⟨[], [(⟨0, 1⟩, 7), (⟨1, 2⟩, 7), (⟨2, 3⟩, 7)]⟩,
          ((rangesOfPhysicalShard [(⟨0, 1⟩, 7), (⟨1, 2⟩, 7), (⟨2, 3⟩, 7)] 7).take
              ((rangesOfPhysicalShard [(⟨0, 1⟩, 7), (⟨1, 2⟩, 7), (⟨2, 3⟩, 7)] 7).length / 2
                + 1)).map
            (fun kr => RelocateShard.mkWith kr
              (DDEvent.mk PRIORITY_SPLIT_PHYSICAL_SHARD none none (some 7) none none
                none).eventType
              RelocateReason.REBALANCE_ROCKSDB_COLUMN))
      ∧ (triggerDDEvent ⟨[], [(⟨0, 1⟩, 7), (⟨1, 2⟩, 7), (⟨2, 3⟩, 7)]⟩
            ⟨PRIORITY_SPLIT_PHYSICAL_SHARD, none, none, some 7, none, none, none⟩
            true).2.length =
          (rangesOfPhysicalShard [(⟨0, 1⟩, 7), (⟨1, 2⟩, 7), (⟨2, 3⟩, 7)] 7).length / 2 + 1) :=
  ⟨rfl, rfl, by decide,
    triggerDDEvent_split_first_half
      ⟨[], [(⟨0, 1⟩, 7), (⟨1, 2⟩, 7), (⟨2, 3⟩, 7)]⟩
      ⟨PRIORITY_SPLIT_PHYSICAL_SHARD, none, none, some 7, none, none, none⟩ 7
      rfl rfl rfl rfl (by decide)⟩

/-! ### Helper lemmas for the physical-shard-aware scorer -/

theorem BoundsLE.trans {a b c : StatsBounds} (h1 : BoundsLE a b) (h2 : BoundsLE b c) :
    BoundsLE a c :=
  ⟨le_trans h1.1 h2.1, le_trans h2.2.1 h1.2.1, le_trans h1.2.2.1 h2.2.2.1,
    le_trans h2.2.2.2 h1.2.2.2⟩

theorem BoundsLE.refl (b : StatsBounds) : BoundsLE b b :=
  ⟨le_refl _, le_refl _, le_refl _, le_refl _⟩

theorem scanStep_le (b : StatsBounds) (tm : TeamAndMetric) : BoundsLE b (scanStep b tm) := by
  simp only [scanStep]
  split
  · exact BoundsLE.refl b
  · exact ⟨le_refl _, le_refl _, le_max_left _ _, min_le_left _ _⟩

theorem scanTeamLags_le (teams : List TeamAndMetric) (b : StatsBounds) :
    BoundsLE b (scanTeamLags b teams) := by
  induction teams generalizing b with
  | nil => exact BoundsLE.refl b
  | cons tm rest ih => exact (scanStep_le b tm).trans (ih (scanStep b tm))

theorem boundsStep_le (b : StatsBounds) (c : CandidateStats) : BoundsLE b (boundsStep b c) :=
  BoundsLE.trans (scanTeamLags_le c.teams b)
    ⟨le_max_left _ _, min_le_left _ _, le_refl _, le_refl _⟩

theorem foldl_boundsStep_le (ts : List CandidateStats) (b : StatsBounds) :
    BoundsLE b (ts.foldl boundsStep b) := by
  induction ts generalizing b with
  | nil => exact BoundsLE.refl b
  | cons c rest ih => exact (boundsStep_le b c).trans (ih (boundsStep b c))

theorem scanTeamLags_mem (teams : List TeamAndMetric) (b : StatsBounds)
    (tm : TeamAndMetric) (htm : tm ∈ teams) (h : getMaxVerLag tm.metrics ≠ -1) :
    (scanTeamLags b teams).minML ≤ getMaxVerLag tm.metrics ∧
      getMaxVerLag tm.metrics ≤ (scanTeamLags b teams).maxML := by
  induction teams generalizing b with
  | nil => cases htm
  | cons x rest ih =>
    rcases List.mem_cons.mp htm with heq | htm
    · subst heq
      have hstep : (scanStep b tm).minML ≤ getMaxVerLag tm.metrics ∧
          getMaxVerLag tm.metrics ≤ (scanStep b tm).maxML := by
        simp only [scanStep, if_neg h]
        exact ⟨min_le_right _ _, le_max_right _ _⟩
      have hrest := scanTeamLags_le rest (scanStep b tm)
      exact ⟨le_trans hrest.2.2.2 hstep.1, le_trans hstep.2 hrest.2.2.1⟩
    · exact ih (scanStep b x) htm

theorem foldl_boundsStep_bytes (ts : List CandidateStats) (b : StatsBounds)
    (c : CandidateStats) (hc : c ∈ ts) :
    (ts.foldl boundsStep b).minPB ≤ c.shard.bytes ∧
      c.shard.bytes ≤ (ts.foldl boundsStep b).maxPB := by
  induction ts generalizing b with
  | nil => cases hc
  | cons x rest ih =>
    rcases List.mem_cons.mp hc with heq | hc
    · subst heq
      have hstep : (boundsStep b c).minPB ≤ c.shard.bytes ∧
          c.shard.bytes ≤ (boundsStep b c).maxPB :=
        ⟨min_le_right _ _, le_max_right _ _⟩
      have hrest := foldl_boundsStep_le rest (boundsStep b c)
      exact ⟨le_trans hrest.2.1 hstep.1, le_trans hstep.2 hrest.1⟩
    · exact ih (boundsStep b x) hc

theorem foldl_boundsStep_lag (ts : List CandidateStats) (b : StatsBounds)
    (c : CandidateStats) (tm : TeamAndMetric) (hc : c ∈ ts) (htm : tm ∈ c.teams)
    (h : getMaxVerLag tm.metrics ≠ -1) :
    (ts.foldl boundsStep b).minML ≤ getMaxVerLag tm.metrics ∧
      getMaxVerLag tm.metrics ≤ (ts.foldl boundsStep b).maxML := by
  induction ts generalizing b with
  | nil => cases hc
  | cons x rest ih =>
    rcases List.mem_cons.mp hc with heq | hc
    · subst heq
      have hstep : (boundsStep b c).minML ≤ getMaxVerLag tm.metrics ∧
          getMaxVerLag tm.metrics ≤ (boundsStep b c).maxML :=
        scanTeamLags_mem c.teams b tm htm h
      have hrest := foldl_boundsStep_le rest (boundsStep b c)
      exact ⟨le_trans hrest.2.2.2 hstep.1, le_trans hstep.2 hrest.2.2.1⟩
    · exact ih (boundsStep b x) hc

theorem scanStep_mlOrd (b : StatsBounds) (tm : TeamAndMetric)
    (h : b.minML = INFINITY_BYTES ∨ b.minML ≤ b.maxML) :
    (scanStep b tm).minML = INFINITY_BYTES ∨ (scanStep b tm).minML ≤ (scanStep b tm).maxML := by
  simp only [scanStep]
  split
  · exact h
  · exact Or.inr (le_trans (min_le_right _ _) (le_max_right _ _))

theorem scanTeamLags_mlOrd (teams : List TeamAndMetric) (b : StatsBounds)
    (h : b.minML = INFINITY_BYTES ∨ b.minML ≤ b.maxML) :
    (scanTeamLags b teams).minML = INFINITY_BYTES ∨
      (scanTeamLags b teams).minML ≤ (scanTeamLags b teams).maxML := by
  induction teams generalizing b with
  | nil => exact h
  | cons tm rest ih => exact ih (scanStep b tm) (scanStep_mlOrd b tm h)

theorem foldl_boundsStep_mlOrd (ts : List CandidateStats) (b : StatsBounds)
    (h : b.minML = INFINITY_BYTES ∨ b.minML ≤ b.maxML) :
    (ts.foldl boundsStep b).minML = INFINITY_BYTES ∨
      (ts.foldl boundsStep b).minML ≤ (ts.foldl boundsStep b).maxML := by
  induction ts generalizing b with
  | nil => exact h
  | cons c rest ih => exact ih (boundsStep b c) (scanTeamLags_mlOrd c.teams b h)

theorem computeBounds_mlOrd (ts : List CandidateStats) :
    (computeBounds ts).minML = INFINITY_BYTES ∨
      (computeBounds ts).minML ≤ (computeBounds ts).maxML :=
  foldl_boundsStep_mlOrd ts ⟨0, INFINITY_BYTES, 0, INFINITY_BYTES⟩ (Or.inl rfl)

theorem computeBounds_maxML_nonneg (ts : List CandidateStats) :
    0 ≤ (computeBounds ts).maxML :=
  (foldl_boundsStep_le ts ⟨0, INFINITY_BYTES, 0, INFINITY_BYTES⟩).2.2.1

theorem computeBounds_bytes (ts : List CandidateStats) (c : CandidateStats) (hc : c ∈ ts) :
    (computeBounds ts).minPB ≤ c.shard.bytes ∧
      c.shard.bytes ≤ (computeBounds ts).maxPB :=
  foldl_boundsStep_bytes ts ⟨0, INFINITY_BYTES, 0, INFINITY_BYTES⟩ c hc

theorem computeBounds_lag (ts : List CandidateStats) (c : CandidateStats)
    (tm : TeamAndMetric) (hc : c ∈ ts) (htm : tm ∈ c.teams)
    (h : getMaxVerLag tm.metrics ≠ -1) :
    (computeBounds ts).minML ≤ getMaxVerLag tm.metrics ∧
      getMaxVerLag tm.metrics ≤ (computeBounds ts).maxML :=
  foldl_boundsStep_lag ts ⟨0, INFINITY_BYTES, 0, INFINITY_BYTES⟩ c tm hc htm h

theorem candMaxLag_nonneg (teams : List TeamAndMetric) (lag : Int)
    (h : candMaxLag teams = some lag) : 0 ≤ lag := by
  induction teams generalizing lag with
  | nil =>
    simp only [candMaxLag, Option.some.injEq] at h
    omega
  | cons x rest ih =>
    simp only [candMaxLag] at h
    by_cases htmp : getMaxVerLag x.metrics = -1
    · rw [if_pos htmp] at h
      cases h
    · rw [if_neg htmp] at h
      cases hrest : candMaxLag rest with
      | none => rw [hrest] at h; cases h
      | some m =>
        rw [hrest] at h
        injection h with h
        rw [← h]
        exact le_trans (ih m hrest) (le_max_left _ _)

theorem candMaxLag_teams (teams : List TeamAndMetric) (lag : Int)
    (h : candMaxLag teams = some lag) :
    ∀ tm ∈ teams, getMaxVerLag tm.metrics ≠ -1 ∧ getMaxVerLag tm.metrics ≤ lag := by
  induction teams generalizing lag with
  | nil => intro tm htm; cases htm
  | cons x rest ih =>
    simp only [candMaxLag] at h
    by_cases htmp : getMaxVerLag x.metrics = -1
    · rw [if_pos htmp] at h
      cases h
    · rw [if_neg htmp] at h
      cases hrest : candMaxLag rest with
      | none => rw [hrest] at h; cases h
      | some m =>
        rw [hrest] at h
        injection h with h
        intro tm htm
        rcases List.mem_cons.mp htm with heq | htm
        · subst heq
          exact ⟨htmp, by rw [← h]; exact le_max_right _ _⟩
        · have hmem := ih m hrest tm htm
          exact ⟨hmem.1, le_trans hmem.2 (by rw [← h]; exact le_max_left _ _)⟩

theorem candMaxLag_le (teams : List TeamAndMetric) (lag B : Int) (hB : 0 ≤ B)
    (hall : ∀ tm ∈ teams, getMaxVerLag tm.metrics ≤ B)
    (h : candMaxLag teams = some lag) : lag ≤ B := by
  induction teams generalizing lag with
  | nil =>
    simp only [candMaxLag, Option.some.injEq] at h
    omega
  | cons x rest ih =>
    simp only [candMaxLag] at h
    by_cases htmp : getMaxVerLag x.metrics = -1
    · rw [if_pos htmp] at h
      cases h
    · rw [if_neg htmp] at h
      cases hrest : candMaxLag rest with
      | none => rw [hrest] at h; cases h
      | some m =>
        rw [hrest] at h
        injection h with h
        have h1 : m ≤ B :=
          ih m (fun tm htm => hall tm (List.mem_cons_of_mem x htm)) hrest
        have h2 : getMaxVerLag x.metrics ≤ B := hall x (List.mem_cons_self x rest)
        rw [← h]
        exact max_le h1 h2

theorem candScore_pos (b : StatsBounds) (bytes lag : Int)
    (h1 : b.minPB ≤ bytes) (h2 : bytes ≤ b.maxPB)
    (h3 : b.minML ≤ b.maxML) (h4 : lag ≤ b.maxML) :
    0 < candScore b bytes lag := by
  have d1 : (0 : ℚ) < ((b.maxPB - b.minPB + 1 : Int) : ℚ) := by
    exact_mod_cast (by omega : (0 : Int) < b.maxPB - b.minPB + 1)
  have n1 : (0 : ℚ) < ((b.maxPB - bytes + 1 : Int) : ℚ) := by
    exact_mod_cast (by omega : (0 : Int) < b.maxPB - bytes + 1)
  have d2 : (0 : ℚ) < ((b.maxML - b.minML + 1 : Int) : ℚ) := by
    exact_mod_cast (by omega : (0 : Int) < b.maxML - b.minML + 1)
  have n2 : (0 : ℚ) < ((b.maxML - lag + 1 : Int) : ℚ) := by
    exact_mod_cast (by omega : (0 : Int) < b.maxML - lag + 1)
  exact add_pos (div_pos n1 d1) (div_pos n2 d2)

theorem selectStep_score_ge (b : StatsBounds) (acc : BestAcc) (c : CandidateStats) :
    acc.bestScore ≤ (selectStep b acc c).bestScore := by
  rw [selectStep]
  cases h : candMaxLag c.teams with
  | none => exact le_refl _
  | some lag =>
    dsimp only
    split
    · next hlt => exact le_of_lt hlt
    · exact le_refl _

theorem foldl_selectStep_ge (b : StatsBounds) (l : List CandidateStats) (acc : BestAcc) :
    acc.bestScore ≤ (l.foldl (selectStep b) acc).bestScore := by
  induction l generalizing acc with
  | nil => exact le_refl _
  | cons c rest ih =>
    exact le_trans (selectStep_score_ge b acc c) (ih (selectStep b acc c))

theorem foldl_selectStep_dominates (b : StatsBounds) (l : List CandidateStats)
    (acc : BestAcc) (c : CandidateStats) (hc : c ∈ l) (lag : Int)
    (hlag : candMaxLag c.teams = some lag) :
    candScore b c.shard.bytes lag ≤ (l.foldl (selectStep b) acc).bestScore := by
  induction l generalizing acc with
  | nil => cases hc
  | cons x rest ih =>
    rcases List.mem_cons.mp hc with heq | hc
    · subst heq
      have hstep : candScore b c.shard.bytes lag ≤ (selectStep b acc c).bestScore := by
        rw [selectStep, hlag]
        dsimp only
        split
        · exact le_refl _
        · next hnlt => exact le_of_not_lt hnlt
      exact le_trans hstep (foldl_selectStep_ge b rest (selectStep b acc c))
    · exact ih (selectStep b acc x) hc

theorem selectStep_cases (b : StatsBounds) (acc : BestAcc) (c : CandidateStats) :
    selectStep b acc c = acc ∨
      ∃ lag, candMaxLag c.teams = some lag ∧
        selectStep b acc c = ⟨candScore b c.shard.bytes lag, c.pid, c.teams⟩ := by
  rw [selectStep]
  cases h : candMaxLag c.teams with
  | none => exact Or.inl rfl
  | some lag =>
    dsimp only
    split
    · exact Or.inr ⟨lag, rfl, rfl⟩
    · exact Or.inl rfl

theorem foldl_selectStep_origin (b : StatsBounds) (l : List CandidateStats) (acc : BestAcc) :
    l.foldl (selectStep b) acc = acc ∨
      ∃ c ∈ l, ∃ lag, candMaxLag c.teams = some lag ∧
        l.foldl (selectStep b) acc = ⟨candScore b c.shard.bytes lag, c.pid, c.teams⟩ := by
  induction l generalizing acc with
  | nil => exact Or.inl rfl
  | cons x rest ih =>
    rcases selectStep_cases b acc x with hx | ⟨lag, hlag, hx⟩
    · have hfold : List.foldl (selectStep b) acc (x :: rest) =
          List.foldl (selectStep b) acc rest := by
        rw [List.foldl_cons, hx]
      rcases ih acc with h | ⟨c, hc, lag', hlag', h⟩
      · exact Or.inl (by rw [hfold, h])
      · exact Or.inr ⟨c, List.mem_cons_of_mem x hc, lag', hlag', by rw [hfold, h]⟩
    · rcases ih (selectStep b acc x) with h | ⟨c, hc, lag', hlag', h⟩
      · exact Or.inr ⟨x, List.mem_cons_self x rest, lag, hlag,
          by rw [List.foldl_cons, h, hx]⟩
      · exact Or.inr ⟨c, List.mem_cons_of_mem x hc, lag', hlag',
          by rw [List.foldl_cons]; exact h⟩

theorem foldl_selectStep_const (b : StatsBounds) (l : List CandidateStats) (acc : BestAcc)
    (h : ∀ c ∈ l, candMaxLag c.teams = none) : l.foldl (selectStep b) acc = acc := by
  induction l generalizing acc with
  | nil => rfl
  | cons x rest ih =>
    have hx : selectStep b acc x = acc := by
      rw [selectStep, h x (List.mem_cons_self x rest)]
    rw [List.foldl_cons, hx]
    exact ih acc (fun c hc => h c (List.mem_cons_of_mem x hc))

/-- Claim C8 (amended): `selectTeamsAndPhysicalShard` returns the empty result
exactly when all candidates have zero bytes, or all byte counts reach the
infinity sentinel, or no positive max version lag is observed, or no version
lag is observed at all, or every candidate misses a storage metric for some
team — and *not* in the spec's degenerate cases (all candidates equal, or
fewer than two candidates, both of which can return a candidate); every
non-empty result is a candidate with complete metrics that maximizes the sum
of the two normalized scores `(max − x + 1)/(max − min + 1)` over bytes and
max version lag. -/
theorem selectTeamsAndPhysicalShard_characterization (ts : List CandidateStats)
    (_hne : ts ≠ []) (hpid : ∀ c ∈ ts, c.pid ≠ 0) : SelectSpecHolds ts := by
  by_cases hscreen : (computeBounds ts).maxPB = 0 ∨
      (computeBounds ts).minPB = INFINITY_BYTES ∨
      (computeBounds ts).maxML = 0 ∨ (computeBounds ts).minML = INFINITY_BYTES
  · have hnone : selectTeamsAndPhysicalShard ts = none := by
      simp only [selectTeamsAndPhysicalShard]
      rw [if_pos hscreen]
    refine ⟨⟨fun _ => ?_, fun _ => hnone⟩, fun r hr => by rw [hnone] at hr; cases hr⟩
    rcases hscreen with h | h | h | h
    · exact Or.inl h
    · exact Or.inr (Or.inl h)
    · exact Or.inr (Or.inr (Or.inl h))
    · exact Or.inr (Or.inr (Or.inr (Or.inl h)))
  · push_neg at hscreen
    have hML : (computeBounds ts).minML ≤ (computeBounds ts).maxML := by
      rcases computeBounds_mlOrd ts with h | h
      · exact absurd h hscreen.2.2.2
      · exact h
    have hMLnn : 0 ≤ (computeBounds ts).maxML := computeBounds_maxML_nonneg ts
    have hpos : ∀ c ∈ ts, ∀ lag, candMaxLag c.teams = some lag →
        0 < candScore (computeBounds ts) c.shard.bytes lag := by
      intro c hc lag hlag
      have hbytes := computeBounds_bytes ts c hc
      have hlagle : lag ≤ (computeBounds ts).maxML := by
        refine candMaxLag_le c.teams lag _ hMLnn ?_ hlag
        intro tm htm
        exact (computeBounds_lag ts c tm hc htm
          (candMaxLag_teams c.teams lag hlag tm htm).1).2
      exact candScore_pos _ _ _ hbytes.1 hbytes.2 hML hlagle
    have hnscreen : ¬ ((computeBounds ts).maxPB = 0 ∨
        (computeBounds ts).minPB = INFINITY_BYTES ∨
        (computeBounds ts).maxML = 0 ∨ (computeBounds ts).minML = INFINITY_BYTES) := by
      push_neg
      exact hscreen
    have hsel : selectTeamsAndPhysicalShard ts =
        (if (selectLoop (computeBounds ts) ts).bestPid = 0 then none
         else some ⟨(selectLoop (computeBounds ts) ts).bestPid,
            (selectLoop (computeBounds ts) ts).bestTeams.map
              (fun tm => (tm.team, tm.flag))⟩) := by
      simp only [selectTeamsAndPhysicalShard]
      rw [if_neg hnscreen]
    by_cases hall : ∀ c ∈ ts, candMaxLag c.teams = none
    · have hconst : selectLoop (computeBounds ts) ts = ⟨0, 0, []⟩ :=
        foldl_selectStep_const (computeBounds ts) ts ⟨0, 0, []⟩ hall
      have hnone : selectTeamsAndPhysicalShard ts = none := by
        rw [hsel, hconst, if_pos rfl]
      exact ⟨⟨fun _ => Or.inr (Or.inr (Or.inr (Or.inr hall))), fun _ => hnone⟩,
        fun r hr => by rw [hnone] at hr; cases hr⟩
    · push_neg at hall
      rcases hall with ⟨c0, hc0, hc0ne⟩
      rcases hopt : candMaxLag c0.teams with _ | lag0
      · exact absurd hopt hc0ne
      have hscore0 := hpos c0 hc0 lag0 hopt
      have hdom0 : candScore (computeBounds ts) c0.shard.bytes lag0 ≤
          (selectLoop (computeBounds ts) ts).bestScore :=
        foldl_selectStep_dominates (computeBounds ts) ts ⟨0, 0, []⟩ c0 hc0 lag0 hopt
      have hbs : 0 < (selectLoop (computeBounds ts) ts).bestScore :=
        lt_of_lt_of_le hscore0 hdom0
      have horigin : selectLoop (computeBounds ts) ts = (⟨0, 0, []⟩ : BestAcc) ∨
          ∃ c ∈ ts, ∃ lag, candMaxLag c.teams = some lag ∧
            selectLoop (computeBounds ts) ts =
              ⟨candScore (computeBounds ts) c.shard.bytes lag, c.pid, c.teams⟩ :=
        foldl_selectStep_origin (computeBounds ts) ts ⟨0, 0, []⟩
      rcases horigin with horig | ⟨c, hc, lag, hlag, horig⟩
      · rw [horig] at hbs
        exact absurd hbs (lt_irrefl 0)
      have hsome : selectTeamsAndPhysicalShard ts =
          some ⟨c.pid, c.teams.map (fun tm => (tm.team, tm.flag))⟩ := by
        rw [hsel, horig, if_neg (hpid c hc)]
      constructor
      · constructor
        · intro h
          rw [hsome] at h
          cases h
        · intro h
          exfalso
          rcases h with h | h | h | h | h
          · exact hscreen.1 h
          · exact hscreen.2.1 h
          · exact hscreen.2.2.1 h
          · exact hscreen.2.2.2 h
          · rw [h c0 hc0] at hopt
            cases hopt
      · intro r hr
        rw [hsome] at hr
        injection hr with hr
        refine ⟨c, hc, ?_, ?_, lag, hlag, ?_⟩
        · rw [← hr]
        · rw [← hr]
        · intro c' hc' lag' hlag'
          have hd : candScore (computeBounds ts) c'.shard.bytes lag' ≤
              (selectLoop (computeBounds ts) ts).bestScore :=
            foldl_selectStep_dominates (computeBounds ts) ts ⟨0, 0, []⟩ c' hc' lag' hlag'
          rw [horig] at hd
          exact hd

/-- Witness for claim C8: a two-candidate set with distinct byte counts and
distinct lags; its selection satisfies the proved characterization. -/
theorem selectTeamsAndPhysicalShard_characterization_witness :
    ([⟨7, ⟨7, 5⟩, [⟨1, true, ⟨[(⟨1, 1⟩, some ⟨3⟩)]⟩⟩]⟩,
        ⟨9, ⟨9, 10⟩, [⟨2, true, ⟨[(⟨2, 2⟩, some ⟨8⟩)]⟩⟩]⟩] : List CandidateStats) ≠ []
    ∧ (∀ c ∈ ([⟨7, ⟨7, 5⟩, [⟨1, true, ⟨[(⟨1, 1⟩, some ⟨3⟩)]⟩⟩]⟩,
        ⟨9, ⟨9, 10⟩, [⟨2, true, ⟨[(⟨2, 2⟩, some ⟨8⟩)]⟩⟩]⟩] : List CandidateStats), c.pid ≠ 0)
    ∧ SelectSpecHolds
        [⟨7, ⟨7, 5⟩, [⟨1, true, ⟨[(⟨1, 1⟩, some ⟨3⟩)]⟩⟩]⟩,
          ⟨9, ⟨9, 10⟩, [⟨2, true, ⟨[(⟨2, 2⟩, some ⟨8⟩)]⟩⟩]⟩] :=
  ⟨by decide, by decide,
    selectTeamsAndPhysicalShard_characterization
      [⟨7, ⟨7, 5⟩, [⟨1, true, ⟨[(⟨1, 1⟩, some ⟨3⟩)]⟩⟩]⟩,
        ⟨9, ⟨9, 10⟩, [⟨2, true, ⟨[(⟨2, 2⟩, some ⟨8⟩)]⟩⟩]⟩]
      (by decide) (by decide)⟩

/-- Claim C8 counterexample: a single candidate (fewer than two) with nonzero
bytes and nonzero lag is returned, not mapped to the empty result as the
claim's degenerate-case rule requires. -/
theorem selectTeamsAndPhysicalShard_single_candidate_counterexample :
    selectTeamsAndPhysicalShard [⟨7, ⟨7, 5⟩, [⟨1, true, ⟨[(⟨1, 1⟩, some ⟨3⟩)]⟩⟩]⟩] =
      some ⟨7, [(1, true)]⟩
    ∧ ([⟨7, ⟨7, 5⟩, [⟨1, true, ⟨[(⟨1, 1⟩, some ⟨3⟩)]⟩⟩]⟩] : List CandidateStats).length < 2 := by
  refine ⟨?_, by decide⟩
  have hb : computeBounds [⟨7, ⟨7, 5⟩, [⟨1, true, ⟨[(⟨1, 1⟩, some ⟨3⟩)]⟩⟩]⟩] =
      ⟨5, 5, 3, 3⟩ := by decide
  have hscore : ((⟨0, 0, []⟩ : BestAcc)).bestScore <
      candScore ⟨5, 5, 3, 3⟩ 5 3 := by
    rw [candScore]
    norm_num
  have hcl : candMaxLag [⟨1, true, ⟨[(⟨1, 1⟩, some ⟨3⟩)]⟩⟩] = some 3 := by decide
  have hstep : selectStep ⟨5, 5, 3, 3⟩ ⟨0, 0, []⟩ ⟨7, ⟨7, 5⟩,
      [⟨1, true, ⟨[(⟨1, 1⟩, some ⟨3⟩)]⟩⟩]⟩ =
      ⟨candScore ⟨5, 5, 3, 3⟩ 5 3, 7, [⟨1, true, ⟨[(⟨1, 1⟩, some ⟨3⟩)]⟩⟩]⟩ := by
    rw [selectStep, hcl]
    dsimp only
    rw [if_pos hscore]
  have hloop : selectLoop ⟨5, 5, 3, 3⟩ [⟨7, ⟨7, 5⟩, [⟨1, true, ⟨[(⟨1, 1⟩, some ⟨3⟩)]⟩⟩]⟩] =
      ⟨candScore ⟨5, 5, 3, 3⟩ 5 3, 7, [⟨1, true, ⟨[(⟨1, 1⟩, some ⟨3⟩)]⟩⟩]⟩ := by
    rw [selectLoop, List.foldl_cons, List.foldl_nil, hstep]
  simp only [selectTeamsAndPhysicalShard]
  rw [hb, hloop]
  rw [if_neg (by decide : ¬ ((5 : Int) = 0 ∨ (5 : Int) = INFINITY_BYTES ∨ (3 : Int) = 0 ∨
    (3 : Int) = INFINITY_BYTES))]
  rw [if_neg (by decide : ¬ (7 = 0))]
  rfl

end FDB
